import Mathlib

/-!
Verification of the image-convert pipeline (main.go) against its
natural-language specification.

The development shallowly embeds the program:

* pixel colors are the four 16-bit channel samples returned by Go's
  color.Color RGBA method (modelled as natural numbers);
* an image is an origin-anchored pixel grid, matching the images the
  pipeline actually handles (decoded images and freshly allocated RGBA
  buffers all have bounds anchored at the origin);
* the pure dimension computations (clamp-resize, resize guard) are
  embedded over exact rationals, with Go's math.Round rounding half away
  from zero;
* the effectful part of convertOne is embedded as a function from a file
  system (a map from path strings to file states) and an oracle of
  success/failure outcomes for each fallible operating-system call to the
  resulting outcome and file system.  File contents are abstracted to a
  tag distinguishing fully written files of different runs from partially
  written temporary files; the pure image transforms (trim, resample)
  cannot fail and do not touch the file system, so they are modelled by
  the standalone definitions trimImage and clampDims.
-/

namespace ImageConvert

/-- The four 16-bit channel samples of Go's color.Color RGBA method. -/
structure GoColor where
  r : Nat
  g : Nat
  b : Nat
  a : Nat
deriving DecidableEq, Repr

/-- The zero color: what Go's RGBA.At returns outside the bounds and for
pixels that were never set. -/
def zeroColor : GoColor := ⟨0, 0, 0, 0⟩

/-- Eight-bit alpha derived from the 16-bit sample, as in isTransparent
(main.go line 430): the low byte is discarded by the shift and the cast
to uint8 keeps the low 8 bits of the result. -/
def alpha8 (c : GoColor) : Nat := (c.a >>> 8) % 256

/-- isTransparent (main.go lines 426-434): a pixel is transparent iff its
8-bit alpha is at or below the threshold. -/
def isTransparent (c : GoColor) (threshold : Nat) : Bool :=
  alpha8 c ≤ threshold

/-- An origin-anchored raster image: width, height and a total pixel
lookup (At returns the zero color outside the bounds, as Go's RGBA.At
does). -/
structure Image where
  width : Nat
  height : Nat
  At : Nat → Nat → GoColor

/-- A content rectangle with exclusive maxima, the value of
findContentBounds. -/
structure Bounds where
  minX : Nat
  minY : Nat
  maxX : Nat
  maxY : Nat
deriving DecidableEq, Repr

/-- One bounds update for a non-transparent pixel at x, y: the four
conditional assignments of main.go lines 402-413. -/
def fcbUpd (x y : Nat) (st : Bounds) : Bounds :=
  { minX := min st.minX x
    minY := min st.minY y
    maxX := max st.maxX x
    maxY := max st.maxY y }

/-- The inner loop of findContentBounds over one row y. -/
def fcbRow (img : Image) (threshold y : Nat) (st : Bounds) : Bounds :=
  (List.range img.width).foldl
    (fun st x => if isTransparent (img.At x y) threshold then st else fcbUpd x y st) st

/-- findContentBounds (main.go lines 391-423): scan all pixels in
row-major order, expanding the bounds at every non-transparent pixel,
starting from minX = width, minY = height, maxX = 0, maxY = 0; finally
make the maxima exclusive by adding one. -/
def findContentBounds (img : Image) (threshold : Nat) : Bounds :=
  let st := (List.range img.height).foldl
    (fun st y => fcbRow img threshold y st) ⟨img.width, img.height, 0, 0⟩
  ⟨st.minX, st.minY, st.maxX + 1, st.maxY + 1⟩

/-- The channel conversion performed by storing a color into an RGBA
buffer via Set and reading it back: each channel is reduced to its high
byte and replicated (v8 * 0x101). -/
def rgbaModel (c : GoColor) : GoColor :=
  ⟨((c.r >>> 8) % 256) * 257, ((c.g >>> 8) % 256) * 257,
   ((c.b >>> 8) % 256) * 257, ((c.a >>> 8) % 256) * 257⟩

/-- trimImage (main.go lines 367-388): crop to the content bounds; if the
rectangle is degenerate return the input itself, otherwise copy the
content sub-rectangle into a freshly allocated RGBA image. -/
def trimImage (img : Image) (threshold : Nat) : Image :=
  let b := findContentBounds img threshold
  if b.minX ≥ b.maxX ∨ b.minY ≥ b.maxY then img
  else
    { width := b.maxX - b.minX
      height := b.maxY - b.minY
      At := fun x y =>
        if x < b.maxX - b.minX ∧ y < b.maxY - b.minY then
          rgbaModel (img.At (x + b.minX) (y + b.minY))
        else zeroColor }

/-- Go's math.Round followed by the cast to int: round half away from
zero, over exact rationals. -/
def goRound (q : ℚ) : ℤ :=
  if q < 0 then -⌊-q + 1 / 2⌋ else ⌊q + 1 / 2⌋

/-- The clamp-resize dimension computation of convertOne (main.go lines
453-468): first clamp the width (scaling the height by maxWidth / w),
then clamp the already-updated height (scaling the updated width by
maxHeight / newH). -/
def clampDims (maxWidth maxHeight ow oh : ℤ) : ℤ × ℤ :=
  let p1 : ℤ × ℤ :=
    if maxWidth > 0 ∧ ow > maxWidth then
      (maxWidth, goRound ((oh : ℚ) * ((maxWidth : ℚ) / (ow : ℚ))))
    else (ow, oh)
  if maxHeight > 0 ∧ p1.2 > maxHeight then
    (goRound ((p1.1 : ℚ) * ((maxHeight : ℚ) / (p1.2 : ℚ))), maxHeight)
  else p1

/-- Modelled from the spec: the clamp-resize dimensions as the spec words
them, with each new dimension written as a single rounded quotient
(newH = round of h * maxWidth / w, then newW = round of newW * maxHeight
/ newH-before).  Used only to compare with clampDims. -/
def clampDimsSpec (maxWidth maxHeight w h : ℤ) : ℤ × ℤ :=
  let p1 : ℤ × ℤ :=
    if maxWidth > 0 ∧ w > maxWidth then
      (maxWidth, goRound (((h * maxWidth : ℤ) : ℚ) / (w : ℚ)))
    else (w, h)
  if maxHeight > 0 ∧ p1.2 > maxHeight then
    (goRound (((p1.1 * maxHeight : ℤ) : ℚ) / (p1.2 : ℚ)), maxHeight)
  else p1

/-- The resampling guard of convertOne (main.go lines 469-473) at the
level of dimensions: the image is resampled to the clamped dimensions
only when both are positive and at least one differs from the original;
otherwise the image keeps its original dimensions. -/
def resizeGuard (maxWidth maxHeight ow oh : ℤ) : ℤ × ℤ :=
  let nd := clampDims maxWidth maxHeight ow oh
  if nd.1 > 0 ∧ nd.2 > 0 ∧ (nd.1 ≠ ow ∨ nd.2 ≠ oh) then nd else (ow, oh)

/-- Go's strings.TrimSuffix, over the character data of the strings. -/
def trimSuffix (s suf : String) : String :=
  if suf.data.isSuffixOf s.data then
    String.mk (s.data.take (s.data.length - suf.data.length))
  else s

/-- filepath.Join for a directory and a file name (the pipeline only ever
joins a clean directory with a bare file name). -/
def goJoin (dir file : String) : String := dir ++ "/" ++ file

/-- The decomposition of an input path that makeOutPath performs with
filepath.Dir, filepath.Base and filepath.Ext: directory, base name
without extension and the extension (with its leading dot). -/
structure PathParts where
  dir : String
  name : String
  ext : String

/-- The full input path of a job. -/
def inPath (p : PathParts) : String := goJoin p.dir (p.name ++ p.ext)

/-- Options of a conversion run (the convertOptions fields the pipeline
reads; quality is Go float32, modelled as an exact rational). -/
structure ConvertOpts where
  quality : ℚ
  lossless : Bool
  overwrite : Bool
  deleteOriginal : Bool
  trim : Bool
  trimThreshold : Nat
  maxWidth : ℤ
  maxHeight : ℤ
  thumbnailPercent : ℤ

/-- makeOutPath (main.go lines 562-570), after the Dir/Base/Ext
decomposition: same directory and base name with extension .webp, except
that any positive thumbnailPercent redirects the primary output to the
name with suffix _thumbnail.webp.  (In Go the function reads the global
options value; the worker passes the same value to convertOne, so the
model takes it as a parameter.) -/
def makeOutPath (opts : ConvertOpts) (p : PathParts) : String :=
  if opts.thumbnailPercent > 0 then goJoin p.dir (p.name ++ "_thumbnail.webp")
  else goJoin p.dir (p.name ++ ".webp")

/-- The thumbnail destination computed inside convertOne (main.go line
532) from the primary output path. -/
def thumbPathOf (outPath : String) : String :=
  trimSuffix outPath ".webp" ++ "_thumbnail.webp"

/-- The state of one file: a partially written temporary, or a fully
written file carrying a tag that identifies the bytes (distinct runs
write distinct tags). -/
inductive FileVal where
  | halfWritten
  | fullyWritten (tag : Nat)
deriving DecidableEq, Repr

/-- A file system: a map from path strings to file states. -/
def FS := String → Option FileVal

/-- Create or replace a file. -/
def FS.insert (fs : FS) (p : String) (v : FileVal) : FS :=
  fun q => if q = p then some v else fs q

/-- Remove a file. -/
def FS.erase (fs : FS) (p : String) : FS :=
  fun q => if q = p then none else fs q

/-- Success or failure of each fallible operating-system or codec call
convertOne makes, in program order. -/
structure Oracle where
  openOk : Bool
  decodeOk : Bool
  removeSrcSkipOk : Bool
  mkdirOk : Bool
  createOk : Bool
  encodeOk : Bool
  closeOk : Bool
  renameOk : Bool
  thumbCreateOk : Bool
  thumbEncodeOk : Bool
  thumbCloseOk : Bool
  thumbRenameOk : Bool
  deleteOk : Bool

/-- The outcome of one job: nil error, the errSkipped sentinel, or any
other error. -/
inductive Outcome where
  | success
  | skipped
  | failed
deriving DecidableEq, Repr

/-- The temp-file-then-rename write discipline shared by the primary
write (main.go lines 496-516) and the thumbnail write (lines 533-550):
create dest.tmp, encode into it, close it, rename it over dest; any
failure after the create removes the temporary file.  Returns whether the
write succeeded together with the resulting file system. -/
def writeAtomic (dest : String) (createOk encodeOk closeOk renameOk : Bool)
    (tag : Nat) (fs : FS) : Bool × FS :=
  let tmp := dest ++ ".tmp"
  if !createOk then (false, fs)
  else
    let fs1 := fs.insert tmp .halfWritten
    if !encodeOk then (false, fs1.erase tmp)
    else if !closeOk then (false, fs1.erase tmp)
    else
      let fs2 := fs1.insert tmp (.fullyWritten tag)
      if !renameOk then (false, fs2.erase tmp)
      else (true, (fs2.erase tmp).insert dest (.fullyWritten tag))

/-- The delete-original epilogue of convertOne (main.go lines 553-557). -/
def deleteStep (p : PathParts) (opts : ConvertOpts) (orc : Oracle) (fs : FS) :
    Outcome × FS :=
  if opts.deleteOriginal then
    if orc.deleteOk then (.success, fs.erase (inPath p)) else (.failed, fs)
  else (.success, fs)

/-- convertOne (main.go lines 436-560) as a file-system transformer: open
and decode the input (the pure trim and resize transforms that follow
cannot fail and do not touch the file system; their dimension behavior is
modelled by trimImage and clampDims / resizeGuard above); then the
existence/overwrite gate, the atomic primary write to makeOutPath, the
unconditional thumbnail write when 0 < thumbnailPercent <= 100, and the
optional deletion of the source. -/
def convertOne (p : PathParts) (opts : ConvertOpts) (orc : Oracle) (tag : Nat)
    (fs : FS) : Outcome × FS :=
  if !orc.openOk then (.failed, fs)
  else if !orc.decodeOk then (.failed, fs)
  else
    let outPath := makeOutPath opts p
    if !opts.overwrite && (fs outPath).isSome then
      if opts.deleteOriginal then
        if orc.removeSrcSkipOk then (.skipped, fs.erase (inPath p))
        else (.failed, fs)
      else (.skipped, fs)
    else if !orc.mkdirOk then (.failed, fs)
    else
      let w1 := writeAtomic outPath orc.createOk orc.encodeOk orc.closeOk
        orc.renameOk tag fs
      if !w1.1 then (.failed, w1.2)
      else if opts.thumbnailPercent > 0 && opts.thumbnailPercent ≤ 100 then
        let w2 := writeAtomic (thumbPathOf outPath) orc.thumbCreateOk
          orc.thumbEncodeOk orc.thumbCloseOk orc.thumbRenameOk tag w1.2
        if !w2.1 then (.failed, w2.2)
        else deleteStep p opts orc w2.2
      else deleteStep p opts orc w1.2

/-! ### Helper lemmas -/

theorem ne_of_length_ne {a b : String} (h : a.length ≠ b.length) : a ≠ b :=
  fun e => h (congrArg String.length e)

theorem ne_append_right {s t : String} (h : t.length ≠ 0) : s ≠ s ++ t := by
  intro e
  apply h
  have hl := congrArg String.length e
  rw [String.length_append] at hl
  omega

theorem append_right_ne {s t u : String} (h : t.length ≠ u.length) :
    s ++ t ≠ s ++ u := by
  intro e
  apply h
  have hl := congrArg String.length e
  rw [String.length_append, String.length_append] at hl
  omega

theorem trimSuffix_append (s t : String) : trimSuffix (s ++ t) t = s := by
  unfold trimSuffix
  rw [if_pos]
  · apply String.ext
    rw [String.data_append]
    show (s.data ++ t.data).take ((s.data ++ t.data).length - t.data.length) = s.data
    rw [List.length_append]
    simp [List.take_left]
  · rw [String.data_append]
    exact List.isSuffixOf_iff_suffix.mpr (List.suffix_append s.data t.data)

theorem writeAtomic_fst (dest : String) (c e cl r : Bool) (tag : Nat) (fs : FS) :
    (writeAtomic dest c e cl r tag fs).1 = (c && e && cl && r) := by
  unfold writeAtomic
  cases c <;> cases e <;> cases cl <;> cases r <;> rfl

theorem writeAtomic_tmp (dest : String) (c e cl r : Bool) (tag : Nat) (fs : FS) :
    (writeAtomic dest c e cl r tag fs).2 (dest ++ ".tmp") =
      if c then none else fs (dest ++ ".tmp") := by
  have hne : dest ++ ".tmp" ≠ dest :=
    (ne_append_right (t := ".tmp") (by decide)).symm
  unfold writeAtomic
  cases c <;> cases e <;> cases cl <;> cases r <;>
    simp [FS.insert, FS.erase, hne]

theorem writeAtomic_dest (dest : String) (c e cl r : Bool) (tag : Nat) (fs : FS) :
    (writeAtomic dest c e cl r tag fs).2 dest =
      if c && e && cl && r then some (.fullyWritten tag) else fs dest := by
  have hne : dest ≠ dest ++ ".tmp" := ne_append_right (by decide)
  unfold writeAtomic
  cases c <;> cases e <;> cases cl <;> cases r <;>
    simp [FS.insert, FS.erase, hne]

theorem writeAtomic_other (dest : String) (c e cl r : Bool) (tag : Nat) (fs : FS)
    (q : String) (h1 : q ≠ dest) (h2 : q ≠ dest ++ ".tmp") :
    (writeAtomic dest c e cl r tag fs).2 q = fs q := by
  unfold writeAtomic
  cases c <;> cases e <;> cases cl <;> cases r <;>
    simp [FS.insert, FS.erase, h1, h2]

theorem foldl_fixed {α β : Type} (l : List α) (f : β → α → β)
    (h : ∀ st a, a ∈ l → f st a = st) : ∀ st, l.foldl f st = st := by
  induction l with
  | nil => intro st; rfl
  | cons x xs ih =>
    intro st
    rw [List.foldl_cons, h st x (List.mem_cons_self x xs)]
    exact ih (fun st a ha => h st a (List.mem_cons_of_mem x ha)) st

theorem foldl_range_single {β : Type} (f : β → Nat → β) (k : Nat) (u : β → β) :
    ∀ n, k < n → (∀ st, f st k = u st) →
    (∀ st j, j < n → j ≠ k → f st j = st) →
    ∀ st, (List.range n).foldl f st = u st := by
  intro n
  induction n with
  | zero => intro h; omega
  | succ m ih =>
    intro hkn hk hother st
    rw [List.range_succ, List.foldl_append]
    by_cases hkm : k = m
    · rw [foldl_fixed _ _ (fun st j hj => hother st j
        (Nat.lt_succ_of_lt (List.mem_range.mp hj))
        (by have := List.mem_range.mp hj; omega))]
      simp only [List.foldl_cons, List.foldl_nil, hkm ▸ hk st]
    · have hkm' : k < m := by omega
      rw [ih hkm' hk (fun st j hj hne => hother st j (Nat.lt_succ_of_lt hj) hne)]
      simp only [List.foldl_cons, List.foldl_nil,
        hother (u st) m (Nat.lt_succ_self m) (fun e => hkm e.symm)]

theorem fcbRow_id (img : Image) (thr y : Nat) (st : Bounds)
    (h : ∀ x, x < img.width → isTransparent (img.At x y) thr = true) :
    fcbRow img thr y st = st := by
  apply foldl_fixed
  intro st x hx
  simp [h x (List.mem_range.mp hx)]

theorem findContentBounds_transparent (img : Image) (thr : Nat)
    (h : ∀ x y, x < img.width → y < img.height →
      isTransparent (img.At x y) thr = true) :
    findContentBounds img thr = ⟨img.width, img.height, 1, 1⟩ := by
  have houter : (List.range img.height).foldl
      (fun st y => fcbRow img thr y st) ⟨img.width, img.height, 0, 0⟩ =
      ⟨img.width, img.height, 0, 0⟩ :=
    foldl_fixed _ _ (fun st y hy =>
      fcbRow_id img thr y st (fun x hx => h x y hx (List.mem_range.mp hy)))
      ⟨img.width, img.height, 0, 0⟩
  simp only [findContentBounds, houter]

theorem findContentBounds_single (img : Image) (thr x y : Nat)
    (hx : x < img.width) (hy : y < img.height)
    (hop : isTransparent (img.At x y) thr = false)
    (htr : ∀ a b, a < img.width → b < img.height → ¬(a = x ∧ b = y) →
      isTransparent (img.At a b) thr = true) :
    findContentBounds img thr = ⟨x, y, x + 1, y + 1⟩ := by
  have hrow : ∀ st, fcbRow img thr y st = fcbUpd x y st := by
    intro st
    apply foldl_range_single _ x (fcbUpd x y) img.width hx
    · intro st; rw [hop]; rfl
    · intro st j hj hne
      simp [htr j y hj hy (fun e => hne e.1)]
  have houter : (List.range img.height).foldl
      (fun st y' => fcbRow img thr y' st) ⟨img.width, img.height, 0, 0⟩ =
      fcbUpd x y ⟨img.width, img.height, 0, 0⟩ := by
    apply foldl_range_single _ y (fcbUpd x y) img.height hy hrow
    intro st j hj hne
    exact fcbRow_id img thr j st
      (fun a ha => htr a j ha hj (fun e => hne e.2))
  simp only [findContentBounds, houter, fcbUpd, Bounds.mk.injEq]
  exact ⟨by omega, by omega, by omega, by omega⟩

/-! ### Claims -/

/-- C5: for every image in which every pixel's 8-bit alpha is at or below
the threshold, trimImage returns the input image itself, unchanged —
provided the image has a positive extent in at least one axis.  (The
literal claim, quantified over all images, fails at the degenerate
zero-by-zero image; see the counterexample below.) -/
theorem trim_transparent_identity (img : Image) (thr : Nat)
    (hdim : 1 ≤ img.width ∨ 1 ≤ img.height)
    (h : ∀ x y, x < img.width → y < img.height →
      isTransparent (img.At x y) thr = true) :
    trimImage img thr = img := by
  have hfcb := findContentBounds_transparent img thr h
  simp only [trimImage, hfcb]
  rw [if_pos]
  exact hdim

/-- Witness for C5: a concrete fully transparent two-by-two image is
returned unchanged. -/
theorem trim_transparent_identity_witness :
    (1 ≤ (Image.mk 2 2 fun _ _ => ⟨0, 0, 0, 0⟩).width ∨
     1 ≤ (Image.mk 2 2 fun _ _ => ⟨0, 0, 0, 0⟩).height) ∧
    trimImage (Image.mk 2 2 fun _ _ => ⟨0, 0, 0, 0⟩) 0 =
      Image.mk 2 2 (fun _ _ => ⟨0, 0, 0, 0⟩) :=
  ⟨Or.inl (by decide),
   trim_transparent_identity _ 0 (Or.inl (by decide))
     (fun _ _ _ _ => by simp [isTransparent, alpha8])⟩

/-- C5 counterexample: the zero-by-zero image is vacuously fully
transparent, yet trimImage returns a one-by-one image (the degenerate
check of main.go line 372 does not fire because the initial bounds are
zero and the maxima become one), so the literal claim is false. -/
theorem trim_transparent_empty_counterexample :
    (∀ x y, x < (Image.mk 0 0 fun _ _ => zeroColor).width →
        y < (Image.mk 0 0 fun _ _ => zeroColor).height →
        isTransparent ((Image.mk 0 0 fun _ _ => zeroColor).At x y) 0 = true) ∧
    trimImage (Image.mk 0 0 fun _ _ => zeroColor) 0 ≠
      Image.mk 0 0 (fun _ _ => zeroColor) := by
  constructor
  · intro x y hx hy; exact absurd hx (Nat.not_lt_zero x)
  · intro e
    have hw := congrArg Image.width e
    have : (trimImage (Image.mk 0 0 fun _ _ => zeroColor) 0).width = 1 := rfl
    rw [this] at hw
    exact Nat.one_ne_zero hw

/-- C6: for every image with exactly one pixel whose 8-bit alpha exceeds
the threshold, at coordinate (x, y), findContentBounds returns the
rectangle with minX = x, minY = y, maxX = x + 1, maxY = y + 1. -/
theorem findContentBounds_single_pixel (img : Image) (thr x y : Nat)
    (hx : x < img.width) (hy : y < img.height)
    (hop : thr < alpha8 (img.At x y))
    (htr : ∀ a b, a < img.width → b < img.height → ¬(a = x ∧ b = y) →
      alpha8 (img.At a b) ≤ thr) :
    findContentBounds img thr = ⟨x, y, x + 1, y + 1⟩ := by
  apply findContentBounds_single img thr x y hx hy
  · simp [isTransparent]
    omega
  · intro a b ha hb hne
    simp [isTransparent]
    exact htr a b ha hb hne

/-- Witness for C6: a three-by-three image whose only opaque pixel sits
at coordinate one-two yields the rectangle one, two, two, three. -/
theorem findContentBounds_single_pixel_witness :
    findContentBounds
      (Image.mk 3 3 fun x y =>
        if x = 1 ∧ y = 2 then ⟨0, 0, 0, 65535⟩ else ⟨0, 0, 0, 0⟩) 0 =
      ⟨1, 2, 2, 3⟩ := by
  apply findContentBounds_single_pixel _ 0 1 2 (by decide) (by decide)
  · decide
  · intro a b ha hb hne
    interval_cases a <;> interval_cases b <;> simp_all [alpha8]

/-- C2: for original dimensions at least one and nonnegative maxima, the
clamp-resize target dimensions computed by the code (clampDims, which
first clamps the width scaling the height by the factor maxWidth over w,
then clamps the already-updated height) coincide with the spec's two-pass
description (clampDimsSpec): the width constraint is applied first and
the height constraint is applied against the already-updated height. -/
theorem clampDims_eq_spec (maxWidth maxHeight w h : ℤ)
    (hw : 1 ≤ w) (hh : 1 ≤ h) (hmw : 0 ≤ maxWidth) (hmh : 0 ≤ maxHeight) :
    clampDims maxWidth maxHeight w h = clampDimsSpec maxWidth maxHeight w h := by
  have k : ∀ a b c : ℤ, (a : ℚ) * ((b : ℚ) / (c : ℚ)) =
      ((a * b : ℤ) : ℚ) / (c : ℚ) := by
    intro a b c
    push_cast
    ring
  simp only [clampDims, clampDimsSpec, k]

/-- Witness for C2: at original dimensions 1000 by 800 with maxima 500
and 300, both computations agree; the value also shows the sequencing
(width pass gives 500 by 400, height pass then gives 375 by 300). -/
theorem clampDims_eq_spec_witness :
    clampDims 500 300 1000 800 = clampDimsSpec 500 300 1000 800 ∧
    clampDims 500 300 1000 800 = (375, 300) :=
  ⟨clampDims_eq_spec 500 300 1000 800 (by norm_num) (by norm_num)
      (by norm_num) (by norm_num),
   by norm_num [clampDims, goRound]⟩

/-- C9: whenever the clamp computation yields a zero target width or
height, the resampling guard leaves the image at its original dimensions;
the conjunct at the concrete input shows that those dimensions can then
still exceed the configured maximum (a 1000 by 1 image under maxWidth 400
stays 1000 by 1 because the rounded height is zero). -/
theorem resizeGuard_zero_is_identity (maxWidth maxHeight ow oh : ℤ)
    (h : (clampDims maxWidth maxHeight ow oh).1 = 0 ∨
      (clampDims maxWidth maxHeight ow oh).2 = 0) :
    resizeGuard maxWidth maxHeight ow oh = (ow, oh) ∧
    (resizeGuard 400 0 1000 1 = (1000, 1) ∧
      (clampDims 400 0 1000 1).2 = 0 ∧ (400 : ℤ) < 1000) := by
  refine ⟨?_, ?_, ?_, by norm_num⟩
  · unfold resizeGuard
    rcases h with h | h <;> simp [h]
  · have hc : clampDims 400 0 1000 1 = (400, 0) := by
      norm_num [clampDims, goRound]
    unfold resizeGuard
    rw [hc]
    norm_num
  · norm_num [clampDims, goRound]

/-- Witness for C9: at maxWidth 400 over a 1000 by 1 image the clamp
yields height zero and the guard keeps the original dimensions. -/
theorem resizeGuard_zero_is_identity_witness :
    resizeGuard 400 0 1000 1 = (1000, 1) :=
  (resizeGuard_zero_is_identity 400 0 1000 1
    (Or.inr (by norm_num [clampDims, goRound]))).1

/-! ### Path-shape lemmas for the convertOne model -/

theorem makeOutPath_pos (opts : ConvertOpts) (p : PathParts)
    (htp : opts.thumbnailPercent > 0) :
    makeOutPath opts p = (goJoin p.dir p.name ++ "_thumbnail") ++ ".webp" := by
  unfold makeOutPath goJoin
  rw [if_pos htp]
  simp [String.append_assoc]

theorem makeOutPath_nonpos (opts : ConvertOpts) (p : PathParts)
    (htp : ¬opts.thumbnailPercent > 0) :
    makeOutPath opts p = goJoin p.dir p.name ++ ".webp" := by
  unfold makeOutPath goJoin
  rw [if_neg htp]
  simp [String.append_assoc]

theorem makeOutPath_stem (opts : ConvertOpts) (p : PathParts) :
    ∃ s, makeOutPath opts p = s ++ ".webp" := by
  by_cases htp : opts.thumbnailPercent > 0
  · exact ⟨_, makeOutPath_pos opts p htp⟩
  · exact ⟨_, makeOutPath_nonpos opts p htp⟩

theorem thumbPathOf_stem (s : String) :
    thumbPathOf (s ++ ".webp") = s ++ "_thumbnail.webp" := by
  unfold thumbPathOf
  rw [trimSuffix_append]

/-- C4: when the destination already exists and overwrite is off, a job
that opened and decoded its input is skipped: with deleteOriginal the
source file is deleted (deletion succeeding) and the outcome is skipped,
otherwise the outcome is skipped with the file system untouched; in both
cases no temporary file is created and nothing is written — the resulting
file system is exactly the initial one, minus at most the source. -/
theorem convertOne_skip_gate (p : PathParts) (opts : ConvertOpts)
    (orc : Oracle) (tag : Nat) (fs : FS)
    (hopen : orc.openOk = true) (hdec : orc.decodeOk = true)
    (hover : opts.overwrite = false)
    (hex : (fs (makeOutPath opts p)).isSome = true)
    (hrm : orc.removeSrcSkipOk = true) :
    convertOne p opts orc tag fs =
      if opts.deleteOriginal then (.skipped, FS.erase fs (inPath p))
      else (.skipped, fs) := by
  simp [convertOne, hopen, hdec, hover, hex, hrm]

/-- Witness for C4: a concrete job whose destination d/a.webp already
exists, with overwrite off and deleteOriginal on, is skipped with the
source d/a.png removed. -/
theorem convertOne_skip_gate_witness :
    convertOne ⟨"d", "a", ".png"⟩
        ⟨80, false, false, true, false, 0, 0, 0, 0⟩
        ⟨true, true, true, true, true, true, true, true, true, true, true,
          true, true⟩ 1
        (fun q => if q = "d/a.webp" then some (.fullyWritten 0) else none) =
      (.skipped,
        FS.erase
          (fun q => if q = "d/a.webp" then some (.fullyWritten 0) else none)
          (inPath ⟨"d", "a", ".png"⟩)) := by
  rw [convertOne_skip_gate _ _ _ _ _ rfl rfl rfl (by rfl) rfl]
  rfl

theorem erase_clean {g : FS} {q r : String} (h : g r = none) :
    (g.erase q) r = none := by
  unfold FS.erase
  split <;> simp [h]

theorem erase_not_half {g : FS} {q r : String}
    (h : g r ≠ some .halfWritten) : (g.erase q) r ≠ some .halfWritten := by
  unfold FS.erase
  split <;> simp [h]

theorem erase_other {g : FS} {q r : String} (h : r ≠ q) :
    (g.erase q) r = g r := by
  unfold FS.erase
  rw [if_neg h]

theorem writeAtomic_tmp_clean (dest : String) (c e cl r : Bool) (tag : Nat)
    (fs : FS) (h : fs (dest ++ ".tmp") = none) :
    (writeAtomic dest c e cl r tag fs).2 (dest ++ ".tmp") = none := by
  rw [writeAtomic_tmp]
  split <;> simp [h]

theorem writeAtomic_dest_not_half (dest : String) (c e cl r : Bool)
    (tag : Nat) (fs : FS) (h : fs dest ≠ some .halfWritten) :
    (writeAtomic dest c e cl r tag fs).2 dest ≠ some .halfWritten := by
  rw [writeAtomic_dest]
  split <;> simp [h]

theorem deleteStep_snd_cases (p : PathParts) (opts : ConvertOpts)
    (orc : Oracle) (g : FS) :
    (deleteStep p opts orc g).2 = g ∨
    (deleteStep p opts orc g).2 = FS.erase g (inPath p) := by
  unfold deleteStep
  split
  · split
    · right; rfl
    · left; rfl
  · left; rfl

/-- Every file system convertOne can return is the initial one, the state
after the primary write, or the state after the thumbnail write — each
possibly with the source path removed. -/
theorem convertOne_snd_cases (p : PathParts) (opts : ConvertOpts)
    (orc : Oracle) (tag : Nat) (fs : FS) :
    (convertOne p opts orc tag fs).2 = fs ∨
    (convertOne p opts orc tag fs).2 = FS.erase fs (inPath p) ∨
    (convertOne p opts orc tag fs).2 =
      (writeAtomic (makeOutPath opts p) orc.createOk orc.encodeOk orc.closeOk
        orc.renameOk tag fs).2 ∨
    (convertOne p opts orc tag fs).2 =
      FS.erase (writeAtomic (makeOutPath opts p) orc.createOk orc.encodeOk
        orc.closeOk orc.renameOk tag fs).2 (inPath p) ∨
    (convertOne p opts orc tag fs).2 =
      (writeAtomic (thumbPathOf (makeOutPath opts p)) orc.thumbCreateOk
        orc.thumbEncodeOk orc.thumbCloseOk orc.thumbRenameOk tag
        (writeAtomic (makeOutPath opts p) orc.createOk orc.encodeOk
          orc.closeOk orc.renameOk tag fs).2).2 ∨
    (convertOne p opts orc tag fs).2 =
      FS.erase ((writeAtomic (thumbPathOf (makeOutPath opts p))
        orc.thumbCreateOk orc.thumbEncodeOk orc.thumbCloseOk orc.thumbRenameOk
        tag (writeAtomic (makeOutPath opts p) orc.createOk orc.encodeOk
          orc.closeOk orc.renameOk tag fs).2).2) (inPath p) := by
  simp only [convertOne]
  split
  · simp
  · split
    · simp
    · split
      · split
        · split <;> simp
        · simp
      · split
        · simp
        · split
          · simp
          · split
            · split
              · simp
              · rcases deleteStep_snd_cases p opts orc _ with h | h <;>
                  rw [h] <;> simp
            · rcases deleteStep_snd_cases p opts orc _ with h | h <;>
                rw [h] <;> simp

/-- C3: the primary output is written via the dest.tmp sibling followed
by a rename: starting from a file system with no leftover temporary and
no partially written destination, after convertOne the temporary path
holds no file (any failure after its creation deletes it) and the
destination is never a partially written file; moreover, reaching the
write phase and having the encode, close or rename fail makes the job
report failure. -/
theorem convertOne_atomic_primary (p : PathParts) (opts : ConvertOpts)
    (orc : Oracle) (tag : Nat) (fs : FS)
    (htmp : fs (makeOutPath opts p ++ ".tmp") = none)
    (hdest : fs (makeOutPath opts p) ≠ some .halfWritten) :
    (convertOne p opts orc tag fs).2 (makeOutPath opts p ++ ".tmp") = none ∧
    (convertOne p opts orc tag fs).2 (makeOutPath opts p) ≠
      some .halfWritten ∧
    (orc.openOk = true → orc.decodeOk = true →
      (opts.overwrite = true ∨ fs (makeOutPath opts p) = none) →
      orc.mkdirOk = true → orc.createOk = true →
      (orc.encodeOk = false ∨ orc.closeOk = false ∨ orc.renameOk = false) →
      (convertOne p opts orc tag fs).1 = .failed) := by
  obtain ⟨s, hO⟩ := makeOutPath_stem opts p
  have hTh : thumbPathOf (makeOutPath opts p) = s ++ "_thumbnail.webp" := by
    rw [hO, thumbPathOf_stem]
  have a2 : makeOutPath opts p ++ ".tmp" ≠ thumbPathOf (makeOutPath opts p) := by
    rw [hTh, hO, String.append_assoc]
    exact append_right_ne (by decide)
  have a3 : makeOutPath opts p ++ ".tmp" ≠
      thumbPathOf (makeOutPath opts p) ++ ".tmp" := by
    rw [hTh, hO, String.append_assoc, String.append_assoc]
    exact append_right_ne (by decide)
  have a4 : makeOutPath opts p ≠ thumbPathOf (makeOutPath opts p) := by
    rw [hTh, hO]
    exact append_right_ne (by decide)
  have a5 : makeOutPath opts p ≠ thumbPathOf (makeOutPath opts p) ++ ".tmp" := by
    rw [hTh, hO, String.append_assoc]
    exact append_right_ne (by decide)
  have hw1t : (writeAtomic (makeOutPath opts p) orc.createOk orc.encodeOk
      orc.closeOk orc.renameOk tag fs).2 (makeOutPath opts p ++ ".tmp") =
      none := writeAtomic_tmp_clean _ _ _ _ _ _ _ htmp
  have hw1d : (writeAtomic (makeOutPath opts p) orc.createOk orc.encodeOk
      orc.closeOk orc.renameOk tag fs).2 (makeOutPath opts p) ≠
      some .halfWritten := writeAtomic_dest_not_half _ _ _ _ _ _ _ hdest
  have hw2t : (writeAtomic (thumbPathOf (makeOutPath opts p))
      orc.thumbCreateOk orc.thumbEncodeOk orc.thumbCloseOk orc.thumbRenameOk
      tag (writeAtomic (makeOutPath opts p) orc.createOk orc.encodeOk
        orc.closeOk orc.renameOk tag fs).2).2
      (makeOutPath opts p ++ ".tmp") = none := by
    rw [writeAtomic_other _ _ _ _ _ _ _ _ a2 a3]
    exact hw1t
  have hw2d : (writeAtomic (thumbPathOf (makeOutPath opts p))
      orc.thumbCreateOk orc.thumbEncodeOk orc.thumbCloseOk orc.thumbRenameOk
      tag (writeAtomic (makeOutPath opts p) orc.createOk orc.encodeOk
        orc.closeOk orc.renameOk tag fs).2).2 (makeOutPath opts p) ≠
      some .halfWritten := by
    rw [writeAtomic_other _ _ _ _ _ _ _ _ a4 a5]
    exact hw1d
  refine ⟨?_, ?_, ?_⟩
  · rcases convertOne_snd_cases p opts orc tag fs with h | h | h | h | h | h <;>
      rw [h]
    · exact htmp
    · exact erase_clean htmp
    · exact hw1t
    · exact erase_clean hw1t
    · exact hw2t
    · exact erase_clean hw2t
  · rcases convertOne_snd_cases p opts orc tag fs with h | h | h | h | h | h <;>
      rw [h]
    · exact hdest
    · exact erase_not_half hdest
    · exact hw1d
    · exact erase_not_half hw1d
    · exact hw2d
    · exact erase_not_half hw2d
  · intro h1 h2 h3 h4 h5 h6
    have hgate : (!opts.overwrite && (fs (makeOutPath opts p)).isSome) = false := by
      rcases h3 with h | h <;> simp [h]
    have hfst : (writeAtomic (makeOutPath opts p) orc.createOk orc.encodeOk
        orc.closeOk orc.renameOk tag fs).1 = false := by
      rw [writeAtomic_fst, h5]
      rcases h6 with h | h | h <;> simp [h]
    simp [convertOne, h1, h2, hgate, h4, hfst]

/-- Witness for C3: a run whose encode fails on an initially empty file
system leaves no temporary file, leaves the destination absent, and
reports failure. -/
theorem convertOne_atomic_primary_witness :
    (convertOne ⟨"d", "a", ".png"⟩ ⟨80, false, false, false, false, 0, 0, 0, 0⟩
        ⟨true, true, true, true, true, false, true, true, true, true, true,
          true, true⟩ 1 (fun _ => none)).2
      (makeOutPath ⟨80, false, false, false, false, 0, 0, 0, 0⟩
        ⟨"d", "a", ".png"⟩ ++ ".tmp") = none ∧
    (convertOne ⟨"d", "a", ".png"⟩ ⟨80, false, false, false, false, 0, 0, 0, 0⟩
        ⟨true, true, true, true, true, false, true, true, true, true, true,
          true, true⟩ 1 (fun _ => none)).1 = .failed := by
  have h := convertOne_atomic_primary ⟨"d", "a", ".png"⟩
    ⟨80, false, false, false, false, 0, 0, 0, 0⟩
    ⟨true, true, true, true, true, false, true, true, true, true, true,
      true, true⟩ 1 (fun _ => none) rfl (by simp)
  exact ⟨h.1, h.2.2 rfl rfl (Or.inr rfl) rfl rfl (Or.inl rfl)⟩

theorem writeAtomic_other_of_no_tmp (dest : String) (c e cl r : Bool)
    (tag : Nat) (fs : FS) (q : String) (h1 : q ≠ dest)
    (h0 : fs (dest ++ ".tmp") = none) :
    (writeAtomic dest c e cl r tag fs).2 q = fs q := by
  by_cases h2 : q = dest ++ ".tmp"
  · subst h2
    rw [writeAtomic_tmp_clean _ _ _ _ _ _ _ h0, h0]
  · exact writeAtomic_other _ _ _ _ _ _ _ _ h1 h2

theorem writeAtomic_dest_ok (dest : String) (tag : Nat) (fs : FS) :
    (writeAtomic dest true true true true tag fs).2 dest =
      some (.fullyWritten tag) := by
  rw [writeAtomic_dest]
  rfl

theorem deleteStep_del_ok (p : PathParts) (opts : ConvertOpts) (orc : Oracle)
    (g : FS) (hd : opts.deleteOriginal = true) (hk : orc.deleteOk = true) :
    deleteStep p opts orc g = (.success, FS.erase g (inPath p)) := by
  simp [deleteStep, hd, hk]

theorem deleteStep_del_fail (p : PathParts) (opts : ConvertOpts) (orc : Oracle)
    (g : FS) (hd : opts.deleteOriginal = true) (hk : orc.deleteOk = false) :
    deleteStep p opts orc g = (.failed, g) := by
  simp [deleteStep, hd, hk]

theorem deleteStep_nodel (p : PathParts) (opts : ConvertOpts) (orc : Oracle)
    (g : FS) (hd : opts.deleteOriginal = false) :
    deleteStep p opts orc g = (.success, g) := by
  simp [deleteStep, hd]

theorem deleteStep_fst_success (p : PathParts) (opts : ConvertOpts)
    (orc : Oracle) (g : FS) (hk : orc.deleteOk = true) :
    (deleteStep p opts orc g).1 = .success := by
  unfold deleteStep
  split <;> simp [hk]

/-- When every call up to and including the primary rename succeeds and
the thumbnail step applies, convertOne is the delete epilogue applied to
the state after both atomic writes. -/
theorem convertOne_eval_thumb (p : PathParts) (opts : ConvertOpts)
    (orc : Oracle) (tag : Nat) (fs : FS)
    (h1 : orc.openOk = true) (h2 : orc.decodeOk = true)
    (hgate : (!opts.overwrite && (fs (makeOutPath opts p)).isSome) = false)
    (h4 : orc.mkdirOk = true)
    (hc : orc.createOk = true) (he : orc.encodeOk = true)
    (hcl : orc.closeOk = true) (hr : orc.renameOk = true)
    (tc : orc.thumbCreateOk = true) (te : orc.thumbEncodeOk = true)
    (tcl : orc.thumbCloseOk = true) (tr : orc.thumbRenameOk = true)
    (htp1 : 0 < opts.thumbnailPercent) (htp2 : opts.thumbnailPercent ≤ 100) :
    convertOne p opts orc tag fs =
      deleteStep p opts orc
        (writeAtomic (thumbPathOf (makeOutPath opts p)) orc.thumbCreateOk
          orc.thumbEncodeOk orc.thumbCloseOk orc.thumbRenameOk tag
          (writeAtomic (makeOutPath opts p) orc.createOk orc.encodeOk
            orc.closeOk orc.renameOk tag fs).2).2 := by
  have hf1 : (writeAtomic (makeOutPath opts p) orc.createOk orc.encodeOk
      orc.closeOk orc.renameOk tag fs).1 = true := by
    rw [writeAtomic_fst, hc, he, hcl, hr]
    rfl
  have hf2 : (writeAtomic (thumbPathOf (makeOutPath opts p)) orc.thumbCreateOk
      orc.thumbEncodeOk orc.thumbCloseOk orc.thumbRenameOk tag
      (writeAtomic (makeOutPath opts p) orc.createOk orc.encodeOk
        orc.closeOk orc.renameOk tag fs).2).1 = true := by
    rw [writeAtomic_fst, tc, te, tcl, tr]
    rfl
  simp [convertOne, h1, h2, hgate, h4, hf1, hf2, htp1, htp2]

/-- When every call up to and including the primary rename succeeds and
the thumbnail step does not apply, convertOne is the delete epilogue
applied to the state after the primary write. -/
theorem convertOne_eval_nothumb (p : PathParts) (opts : ConvertOpts)
    (orc : Oracle) (tag : Nat) (fs : FS)
    (h1 : orc.openOk = true) (h2 : orc.decodeOk = true)
    (hgate : (!opts.overwrite && (fs (makeOutPath opts p)).isSome) = false)
    (h4 : orc.mkdirOk = true)
    (hc : orc.createOk = true) (he : orc.encodeOk = true)
    (hcl : orc.closeOk = true) (hr : orc.renameOk = true)
    (htp : (opts.thumbnailPercent > 0 && opts.thumbnailPercent ≤ 100) = false) :
    convertOne p opts orc tag fs =
      deleteStep p opts orc
        (writeAtomic (makeOutPath opts p) orc.createOk orc.encodeOk
          orc.closeOk orc.renameOk tag fs).2 := by
  have hf1 : (writeAtomic (makeOutPath opts p) orc.createOk orc.encodeOk
      orc.closeOk orc.renameOk tag fs).1 = true := by
    rw [writeAtomic_fst, hc, he, hcl, hr]
    rfl
  simp [convertOne, h1, h2, hgate, h4, hf1, htp]

/-- C10: with thumbnailPercent strictly above 100, the primary output
path is still redirected to the thumbnail name (the path computation
tests only positivity) while the separate thumbnail step is skipped (it
also requires the percent to be at most 100): a fully successful run
produces exactly one new file, at the thumbnail-named primary path, and
touches nothing else. -/
theorem convertOne_tp_above_100 (p : PathParts) (opts : ConvertOpts)
    (orc : Oracle) (tag : Nat) (fs : FS)
    (htp : 100 < opts.thumbnailPercent)
    (h1 : orc.openOk = true) (h2 : orc.decodeOk = true)
    (hgate : opts.overwrite = true ∨ fs (makeOutPath opts p) = none)
    (h4 : orc.mkdirOk = true)
    (hc : orc.createOk = true) (he : orc.encodeOk = true)
    (hcl : orc.closeOk = true) (hr : orc.renameOk = true)
    (hk : orc.deleteOk = true)
    (htmp0 : fs (makeOutPath opts p ++ ".tmp") = none)
    (hne1 : inPath p ≠ makeOutPath opts p) :
    (convertOne p opts orc tag fs).1 = .success ∧
    (convertOne p opts orc tag fs).2 (makeOutPath opts p) =
      some (.fullyWritten tag) ∧
    makeOutPath opts p = goJoin p.dir (p.name ++ "_thumbnail.webp") ∧
    (∀ q, q ≠ makeOutPath opts p → q ≠ inPath p →
      (convertOne p opts orc tag fs).2 q = fs q) := by
  have hgate' : (!opts.overwrite && (fs (makeOutPath opts p)).isSome) = false := by
    rcases hgate with h | h <;> simp [h]
  have hnotle : ¬opts.thumbnailPercent ≤ 100 := not_le.mpr htp
  have heval := convertOne_eval_nothumb p opts orc tag fs h1 h2 hgate' h4
    hc he hcl hr (by simp [hnotle])
  rw [heval]
  have hWdest : (writeAtomic (makeOutPath opts p) orc.createOk orc.encodeOk
      orc.closeOk orc.renameOk tag fs).2 (makeOutPath opts p) =
      some (.fullyWritten tag) := by
    rw [hc, he, hcl, hr]
    exact writeAtomic_dest_ok _ _ _
  refine ⟨deleteStep_fst_success _ _ _ _ hk, ?_, ?_, ?_⟩
  · rcases deleteStep_snd_cases p opts orc
      (writeAtomic (makeOutPath opts p) orc.createOk orc.encodeOk
        orc.closeOk orc.renameOk tag fs).2 with h | h <;> rw [h]
    · exact hWdest
    · rw [erase_other (fun e => hne1 e.symm)]
      exact hWdest
  · unfold makeOutPath
    rw [if_pos (by omega)]
  · intro q hq1 hq2
    rcases deleteStep_snd_cases p opts orc
      (writeAtomic (makeOutPath opts p) orc.createOk orc.encodeOk
        orc.closeOk orc.renameOk tag fs).2 with h | h <;> rw [h]
    · exact writeAtomic_other_of_no_tmp _ _ _ _ _ _ _ _ hq1 htmp0
    · rw [erase_other hq2]
      exact writeAtomic_other_of_no_tmp _ _ _ _ _ _ _ _ hq1 htmp0

/-- Witness for C10: a concrete run with thumbnailPercent 150 writes only
d/a_thumbnail.webp. -/
theorem convertOne_tp_above_100_witness :
    (convertOne ⟨"d", "a", ".png"⟩ ⟨80, false, false, false, false, 0, 0, 0, 150⟩
        ⟨true, true, true, true, true, true, true, true, true, true, true,
          true, true⟩ 1 (fun _ => none)).1 = .success ∧
    (convertOne ⟨"d", "a", ".png"⟩ ⟨80, false, false, false, false, 0, 0, 0, 150⟩
        ⟨true, true, true, true, true, true, true, true, true, true, true,
          true, true⟩ 1 (fun _ => none)).2
      (makeOutPath ⟨80, false, false, false, false, 0, 0, 0, 150⟩
        ⟨"d", "a", ".png"⟩) = some (.fullyWritten 1) := by
  have h := convertOne_tp_above_100 ⟨"d", "a", ".png"⟩
    ⟨80, false, false, false, false, 0, 0, 0, 150⟩
    ⟨true, true, true, true, true, true, true, true, true, true, true,
      true, true⟩ 1 (fun _ => none) (by norm_num) rfl rfl (Or.inr rfl) rfl
    rfl rfl rfl rfl rfl rfl (by decide)
  exact ⟨h.1, h.2.1⟩

theorem erase_self {g : FS} {q : String} : (FS.erase g q) q = none := by
  unfold FS.erase
  simp

/-- C1 counterexample: with thumbnailPercent 50 the primary output is
redirected to d/a_thumbnail.webp, and a second thumbnail file is
nevertheless produced, at d/a_thumbnail_thumbnail.webp — the code has no
check that the primary was already redirected. -/
theorem thumb_redirect_counterexample :
    makeOutPath ⟨80, false, false, false, false, 0, 0, 0, 50⟩
      ⟨"d", "a", ".png"⟩ = "d/a_thumbnail.webp" ∧
    (convertOne ⟨"d", "a", ".png"⟩ ⟨80, false, false, false, false, 0, 0, 0, 50⟩
        ⟨true, true, true, true, true, true, true, true, true, true, true,
          true, true⟩ 1 (fun _ => none)).2
      "d/a_thumbnail_thumbnail.webp" = some (.fullyWritten 1) := by
  exact ⟨rfl, rfl⟩

/-- C1 (amended): for a fully successful job with thumbnailPercent in
1..100, the primary output goes to the name-underscore-thumbnail path and
the second thumbnail image is generated anyway, written to the doubled
name-underscore-thumbnail-underscore-thumbnail path derived by trimming
.webp from the primary path and appending the thumbnail suffix. -/
theorem convertOne_thumb_double (p : PathParts) (opts : ConvertOpts)
    (orc : Oracle) (tag : Nat) (fs : FS)
    (htp1 : 0 < opts.thumbnailPercent) (htp2 : opts.thumbnailPercent ≤ 100)
    (h1 : orc.openOk = true) (h2 : orc.decodeOk = true)
    (hgate : opts.overwrite = true ∨ fs (makeOutPath opts p) = none)
    (h4 : orc.mkdirOk = true)
    (hc : orc.createOk = true) (he : orc.encodeOk = true)
    (hcl : orc.closeOk = true) (hr : orc.renameOk = true)
    (tc : orc.thumbCreateOk = true) (te : orc.thumbEncodeOk = true)
    (tcl : orc.thumbCloseOk = true) (tr : orc.thumbRenameOk = true)
    (hne1 : inPath p ≠ makeOutPath opts p)
    (hne2 : inPath p ≠ thumbPathOf (makeOutPath opts p)) :
    (convertOne p opts orc tag fs).2 (makeOutPath opts p) =
      some (.fullyWritten tag) ∧
    (convertOne p opts orc tag fs).2 (thumbPathOf (makeOutPath opts p)) =
      some (.fullyWritten tag) ∧
    makeOutPath opts p = goJoin p.dir (p.name ++ "_thumbnail.webp") ∧
    thumbPathOf (makeOutPath opts p) =
      goJoin p.dir (p.name ++ "_thumbnail_thumbnail.webp") := by
  obtain ⟨s, hO⟩ := makeOutPath_stem opts p
  have hTh : thumbPathOf (makeOutPath opts p) = s ++ "_thumbnail.webp" := by
    rw [hO, thumbPathOf_stem]
  have a4 : makeOutPath opts p ≠ thumbPathOf (makeOutPath opts p) := by
    rw [hTh, hO]
    exact append_right_ne (by decide)
  have a5 : makeOutPath opts p ≠ thumbPathOf (makeOutPath opts p) ++ ".tmp" := by
    rw [hTh, hO, String.append_assoc]
    exact append_right_ne (by decide)
  have hgate' : (!opts.overwrite && (fs (makeOutPath opts p)).isSome) = false := by
    rcases hgate with h | h <;> simp [h]
  have heval := convertOne_eval_thumb p opts orc tag fs h1 h2 hgate' h4
    hc he hcl hr tc te tcl tr htp1 htp2
  rw [heval]
  have hW1dest : (writeAtomic (makeOutPath opts p) orc.createOk orc.encodeOk
      orc.closeOk orc.renameOk tag fs).2 (makeOutPath opts p) =
      some (.fullyWritten tag) := by
    rw [hc, he, hcl, hr]
    exact writeAtomic_dest_ok _ _ _
  have hW2out : (writeAtomic (thumbPathOf (makeOutPath opts p))
      orc.thumbCreateOk orc.thumbEncodeOk orc.thumbCloseOk orc.thumbRenameOk
      tag (writeAtomic (makeOutPath opts p) orc.createOk orc.encodeOk
        orc.closeOk orc.renameOk tag fs).2).2 (makeOutPath opts p) =
      some (.fullyWritten tag) := by
    rw [writeAtomic_other _ _ _ _ _ _ _ _ a4 a5]
    exact hW1dest
  have hW2th : (writeAtomic (thumbPathOf (makeOutPath opts p))
      orc.thumbCreateOk orc.thumbEncodeOk orc.thumbCloseOk orc.thumbRenameOk
      tag (writeAtomic (makeOutPath opts p) orc.createOk orc.encodeOk
        orc.closeOk orc.renameOk tag fs).2).2
      (thumbPathOf (makeOutPath opts p)) = some (.fullyWritten tag) := by
    rw [tc, te, tcl, tr]
    exact writeAtomic_dest_ok _ _ _
  refine ⟨?_, ?_, ?_, ?_⟩
  · rcases deleteStep_snd_cases p opts orc _ with h | h <;> rw [h]
    · exact hW2out
    · rw [erase_other (fun e => hne1 e.symm)]
      exact hW2out
  · rcases deleteStep_snd_cases p opts orc _ with h | h <;> rw [h]
    · exact hW2th
    · rw [erase_other (fun e => hne2 e.symm)]
      exact hW2th
  · unfold makeOutPath
    rw [if_pos htp1]
  · have hpos := makeOutPath_pos opts p htp1
    rw [hpos, thumbPathOf_stem]
    have lit : ("_thumbnail" : String) ++ "_thumbnail.webp" =
      "_thumbnail_thumbnail.webp" := rfl
    unfold goJoin
    simp [String.append_assoc, lit]

/-- Witness for C1 (amended): the concrete run writes both
d/a_thumbnail.webp and d/a_thumbnail_thumbnail.webp. -/
theorem convertOne_thumb_double_witness :
    (convertOne ⟨"d", "a", ".png"⟩ ⟨80, false, false, false, false, 0, 0, 0, 50⟩
        ⟨true, true, true, true, true, true, true, true, true, true, true,
          true, true⟩ 1 (fun _ => none)).2
      (makeOutPath ⟨80, false, false, false, false, 0, 0, 0, 50⟩
        ⟨"d", "a", ".png"⟩) = some (.fullyWritten 1) ∧
    (convertOne ⟨"d", "a", ".png"⟩ ⟨80, false, false, false, false, 0, 0, 0, 50⟩
        ⟨true, true, true, true, true, true, true, true, true, true, true,
          true, true⟩ 1 (fun _ => none)).2
      (thumbPathOf (makeOutPath ⟨80, false, false, false, false, 0, 0, 0, 50⟩
        ⟨"d", "a", ".png"⟩)) = some (.fullyWritten 1) := by
  have h := convertOne_thumb_double ⟨"d", "a", ".png"⟩
    ⟨80, false, false, false, false, 0, 0, 0, 50⟩
    ⟨true, true, true, true, true, true, true, true, true, true, true,
      true, true⟩ 1 (fun _ => none) (by norm_num) (by norm_num) rfl rfl
    (Or.inr rfl) rfl rfl rfl rfl rfl rfl rfl rfl rfl (by decide) (by decide)
  exact ⟨h.1, h.2.1⟩

/-- C7 counterexample: the thumbnail destination
d/a_thumbnail_thumbnail.webp already exists with content tag 0 and
overwrite is off, yet the run replaces it with the newly encoded
thumbnail (tag 1): the in-pipeline thumbnail write has no
existence/overwrite gate. -/
theorem thumb_gate_counterexample :
    ((fun q => if q = "d/a_thumbnail_thumbnail.webp"
        then some (FileVal.fullyWritten 0) else none) :
      String → Option FileVal) "d/a_thumbnail_thumbnail.webp" =
        some (.fullyWritten 0) ∧
    (⟨80, false, false, false, false, 0, 0, 0, 50⟩ : ConvertOpts).overwrite =
      false ∧
    (convertOne ⟨"d", "a", ".png"⟩ ⟨80, false, false, false, false, 0, 0, 0, 50⟩
        ⟨true, true, true, true, true, true, true, true, true, true, true,
          true, true⟩ 1
        (fun q => if q = "d/a_thumbnail_thumbnail.webp"
          then some (.fullyWritten 0) else none)).2
      "d/a_thumbnail_thumbnail.webp" = some (.fullyWritten 1) := by
  exact ⟨rfl, rfl, rfl⟩

/-- C7 (amended): in convertOne the thumbnail write is not gated by any
existence/overwrite check of its own: for any fully successful job with
thumbnailPercent in 1..100, whatever the prior state of the thumbnail
destination and whatever the overwrite flag (the only gate is the primary
destination's), the thumbnail destination ends up holding the newly
written file. -/
theorem convertOne_thumb_ungated (p : PathParts) (opts : ConvertOpts)
    (orc : Oracle) (tag : Nat) (fs : FS)
    (htp1 : 0 < opts.thumbnailPercent) (htp2 : opts.thumbnailPercent ≤ 100)
    (h1 : orc.openOk = true) (h2 : orc.decodeOk = true)
    (hgate : opts.overwrite = true ∨ fs (makeOutPath opts p) = none)
    (h4 : orc.mkdirOk = true)
    (hc : orc.createOk = true) (he : orc.encodeOk = true)
    (hcl : orc.closeOk = true) (hr : orc.renameOk = true)
    (tc : orc.thumbCreateOk = true) (te : orc.thumbEncodeOk = true)
    (tcl : orc.thumbCloseOk = true) (tr : orc.thumbRenameOk = true)
    (hne2 : inPath p ≠ thumbPathOf (makeOutPath opts p)) :
    (convertOne p opts orc tag fs).2 (thumbPathOf (makeOutPath opts p)) =
      some (.fullyWritten tag) := by
  have hgate' : (!opts.overwrite && (fs (makeOutPath opts p)).isSome) = false := by
    rcases hgate with h | h <;> simp [h]
  have heval := convertOne_eval_thumb p opts orc tag fs h1 h2 hgate' h4
    hc he hcl hr tc te tcl tr htp1 htp2
  rw [heval]
  have hW2th : (writeAtomic (thumbPathOf (makeOutPath opts p))
      orc.thumbCreateOk orc.thumbEncodeOk orc.thumbCloseOk orc.thumbRenameOk
      tag (writeAtomic (makeOutPath opts p) orc.createOk orc.encodeOk
        orc.closeOk orc.renameOk tag fs).2).2
      (thumbPathOf (makeOutPath opts p)) = some (.fullyWritten tag) := by
    rw [tc, te, tcl, tr]
    exact writeAtomic_dest_ok _ _ _
  rcases deleteStep_snd_cases p opts orc _ with h | h <;> rw [h]
  · exact hW2th
  · rw [erase_other (fun e => hne2 e.symm)]
    exact hW2th

/-- Witness for C7 (amended): a run over a file system whose thumbnail
destination already exists, with overwrite off, still ends with the new
thumbnail in place. -/
theorem convertOne_thumb_ungated_witness :
    (convertOne ⟨"d", "a", ".png"⟩ ⟨80, false, false, false, false, 0, 0, 0, 50⟩
        ⟨true, true, true, true, true, true, true, true, true, true, true,
          true, true⟩ 1
        (fun q => if q = "d/a_thumbnail_thumbnail.webp"
          then some (.fullyWritten 0) else none)).2
      (thumbPathOf (makeOutPath ⟨80, false, false, false, false, 0, 0, 0, 50⟩
        ⟨"d", "a", ".png"⟩)) = some (.fullyWritten 1) :=
  convertOne_thumb_ungated ⟨"d", "a", ".png"⟩
    ⟨80, false, false, false, false, 0, 0, 0, 50⟩
    ⟨true, true, true, true, true, true, true, true, true, true, true,
      true, true⟩ 1
    (fun q => if q = "d/a_thumbnail_thumbnail.webp"
      then some (.fullyWritten 0) else none)
    (by norm_num) (by norm_num) rfl rfl (Or.inr rfl) rfl rfl rfl rfl rfl
    rfl rfl rfl rfl (by decide)

/-- C8 counterexample: deleteOriginal is on and the primary write has
succeeded (d/a_thumbnail.webp holds the new file), but because the
thumbnail encode then fails the job reports failure without ever deleting
the source d/a.png — so a successful primary write alone does not imply
the source is deleted. -/
theorem delete_original_counterexample :
    (⟨80, false, false, true, false, 0, 0, 0, 50⟩ : ConvertOpts).deleteOriginal
      = true ∧
    (convertOne ⟨"d", "a", ".png"⟩ ⟨80, false, false, true, false, 0, 0, 0, 50⟩
        ⟨true, true, true, true, true, true, true, true, true, false, true,
          true, true⟩ 1
        (fun q => if q = "d/a.png" then some (.fullyWritten 0) else none)).2
      "d/a_thumbnail.webp" = some (.fullyWritten 1) ∧
    (convertOne ⟨"d", "a", ".png"⟩ ⟨80, false, false, true, false, 0, 0, 0, 50⟩
        ⟨true, true, true, true, true, true, true, true, true, false, true,
          true, true⟩ 1
        (fun q => if q = "d/a.png" then some (.fullyWritten 0) else none)).2
      "d/a.png" = some (.fullyWritten 0) ∧
    (convertOne ⟨"d", "a", ".png"⟩ ⟨80, false, false, true, false, 0, 0, 0, 50⟩
        ⟨true, true, true, true, true, true, true, true, true, false, true,
          true, true⟩ 1
        (fun q => if q = "d/a.png" then some (.fullyWritten 0) else none)).1
      = .failed := by
  exact ⟨rfl, rfl, rfl, rfl⟩

/-- C8 (amended): for a job with deleteOriginal whose primary write and,
when the thumbnail step applies, thumbnail write all succeed, the source
is deleted afterwards and the job succeeds; if that deletion fails the
job's outcome is failure even though the destination already holds the
fully written converted file, which is not rolled back. -/
theorem convertOne_delete_original (p : PathParts) (opts : ConvertOpts)
    (orc : Oracle) (tag : Nat) (fs : FS)
    (hdel : opts.deleteOriginal = true)
    (h1 : orc.openOk = true) (h2 : orc.decodeOk = true)
    (hgate : opts.overwrite = true ∨ fs (makeOutPath opts p) = none)
    (h4 : orc.mkdirOk = true)
    (hc : orc.createOk = true) (he : orc.encodeOk = true)
    (hcl : orc.closeOk = true) (hr : orc.renameOk = true)
    (tc : orc.thumbCreateOk = true) (te : orc.thumbEncodeOk = true)
    (tcl : orc.thumbCloseOk = true) (tr : orc.thumbRenameOk = true) :
    (orc.deleteOk = true →
      (convertOne p opts orc tag fs).1 = .success ∧
      (convertOne p opts orc tag fs).2 (inPath p) = none) ∧
    (orc.deleteOk = false →
      (convertOne p opts orc tag fs).1 = .failed ∧
      (convertOne p opts orc tag fs).2 (makeOutPath opts p) =
        some (.fullyWritten tag)) := by
  obtain ⟨s, hO⟩ := makeOutPath_stem opts p
  have hTh : thumbPathOf (makeOutPath opts p) = s ++ "_thumbnail.webp" := by
    rw [hO, thumbPathOf_stem]
  have a4 : makeOutPath opts p ≠ thumbPathOf (makeOutPath opts p) := by
    rw [hTh, hO]
    exact append_right_ne (by decide)
  have a5 : makeOutPath opts p ≠ thumbPathOf (makeOutPath opts p) ++ ".tmp" := by
    rw [hTh, hO, String.append_assoc]
    exact append_right_ne (by decide)
  have hgate' : (!opts.overwrite && (fs (makeOutPath opts p)).isSome) = false := by
    rcases hgate with h | h <;> simp [h]
  have hW1dest : (writeAtomic (makeOutPath opts p) orc.createOk orc.encodeOk
      orc.closeOk orc.renameOk tag fs).2 (makeOutPath opts p) =
      some (.fullyWritten tag) := by
    rw [hc, he, hcl, hr]
    exact writeAtomic_dest_ok _ _ _
  by_cases htp : (opts.thumbnailPercent > 0 &&
      opts.thumbnailPercent ≤ 100) = true
  · have htp' := htp
    simp only [Bool.and_eq_true, decide_eq_true_eq] at htp'
    have heval := convertOne_eval_thumb p opts orc tag fs h1 h2 hgate' h4
      hc he hcl hr tc te tcl tr htp'.1 htp'.2
    rw [heval]
    have hW2out : (writeAtomic (thumbPathOf (makeOutPath opts p))
        orc.thumbCreateOk orc.thumbEncodeOk orc.thumbCloseOk orc.thumbRenameOk
        tag (writeAtomic (makeOutPath opts p) orc.createOk orc.encodeOk
          orc.closeOk orc.renameOk tag fs).2).2 (makeOutPath opts p) =
        some (.fullyWritten tag) := by
      rw [writeAtomic_other _ _ _ _ _ _ _ _ a4 a5]
      exact hW1dest
    constructor
    · intro hk
      rw [deleteStep_del_ok p opts orc _ hdel hk]
      exact ⟨rfl, erase_self⟩
    · intro hk
      rw [deleteStep_del_fail p opts orc _ hdel hk]
      exact ⟨rfl, hW2out⟩
  · have htp' : (opts.thumbnailPercent > 0 &&
        opts.thumbnailPercent ≤ 100) = false := by
      revert htp
      cases opts.thumbnailPercent > 0 && opts.thumbnailPercent ≤ 100 <;> simp
    have heval := convertOne_eval_nothumb p opts orc tag fs h1 h2 hgate' h4
      hc he hcl hr htp'
    rw [heval]
    constructor
    · intro hk
      rw [deleteStep_del_ok p opts orc _ hdel hk]
      exact ⟨rfl, erase_self⟩
    · intro hk
      rw [deleteStep_del_fail p opts orc _ hdel hk]
      exact ⟨rfl, hW1dest⟩

/-- Witness for C8 (amended): with a failing source deletion the concrete
job fails while d/a.webp holds the converted file. -/
theorem convertOne_delete_original_witness :
    (convertOne ⟨"d", "a", ".png"⟩ ⟨80, false, false, true, false, 0, 0, 0, 0⟩
        ⟨true, true, true, true, true, true, true, true, true, true, true,
          true, false⟩ 1
        (fun q => if q = "d/a.png" then some (.fullyWritten 0) else none)).1
      = .failed ∧
    (convertOne ⟨"d", "a", ".png"⟩ ⟨80, false, false, true, false, 0, 0, 0, 0⟩
        ⟨true, true, true, true, true, true, true, true, true, true, true,
          true, false⟩ 1
        (fun q => if q = "d/a.png" then some (.fullyWritten 0) else none)).2
      (makeOutPath ⟨80, false, false, true, false, 0, 0, 0, 0⟩
        ⟨"d", "a", ".png"⟩) = some (.fullyWritten 1) :=
  (convertOne_delete_original ⟨"d", "a", ".png"⟩
    ⟨80, false, false, true, false, 0, 0, 0, 0⟩
    ⟨true, true, true, true, true, true, true, true, true, true, true,
      true, false⟩ 1
    (fun q => if q = "d/a.png" then some (.fullyWritten 0) else none)
    rfl rfl rfl (Or.inr rfl) rfl rfl rfl rfl rfl rfl rfl rfl rfl).2 rfl

end ImageConvert
